import Mathlib

/-!
# Verification of `analysis/11.mozzarellm.py`

Shallow embedding of the resumable batch-analysis script
`src/analysis/11.mozzarellm.py` from `cheeseman-lab/whitney-analysis`.

The script iterates over cluster work items, skips the ones whose checkpoint
file is already present, calls an external analyzer (`ClusterAnalyzer.analyze`)
for the rest, persists each result as `clusters/cluster_<id>.json`, and finally
aggregates every checkpoint into a combined JSON report and a TSV summary
table (`combine_results`).

The embedding models:
* JSON scalar values that appear as cluster ids (`JVal`) together with
  Python's `str()` on them (`pyStr`);
* the persisted per-cluster JSON document (`ClusterDoc`); a checkpoint
  file's content (`FileData`) is either unparsable (`json.load` raises),
  valid JSON that is not an object (on which a later `data.get` raises
  `AttributeError`), or a parsed object;
* the checkpoint directory as an ordered listing of named files (`Dir`);
* Python string helpers used by the script (`split`, `startswith`,
  `endswith`, `int(...)`) at the character-list level;
* the script's functions `load_existing_results`, `save_cluster_result`,
  `combine_results`, and the per-item loop body of `main` (`processItem`,
  `runBatch`, `mainRun`).
-/

/-- A JSON scalar as it occurs in the `cluster_id` position: either a JSON
string or a JSON integer.  (Ids in this pipeline are written either as the
textual form of a cluster number or the number itself.) -/
inductive JVal where
  | s (v : String)
  | n (v : Int)
  deriving DecidableEq, Repr

/-- Python's `str()` on a `JVal`: a string is returned as-is, an integer is
rendered in decimal (Lean's `toString : Int → String` agrees with Python's
`str` on integers). -/
def pyStr : JVal → String
  | .s v => v
  | .n v => toString v

/-- The structured per-cluster result document as the script persists and
reads it.  Fields mirror the JSON keys used by `combine_results` and the main
loop; every field is optional because `dict.get` is used throughout. -/
structure ClusterDoc where
  cluster_id : Option JVal := none
  dominant_process : Option String := none
  pathway_confidence : Option String := none
  summary : Option String := none
  established_genes : Option (List String) := none
  novel_role_genes : Option (List String) := none
  uncharacterized_genes : Option (List String) := none
  deriving DecidableEq, Repr

/-- Content of one checkpoint file as `json.load` and the subsequent
`data.get("cluster_id")` see it:
* `corrupt` — `json.load` raises `JSONDecodeError` (caught during
  discovery, uncaught during aggregation);
* `nonObject` — valid JSON that is not a JSON object (`null`, a list, a
  number, a string, a boolean): `json.load` succeeds, but any later
  `data.get(...)` raises `AttributeError`, which nothing catches;
* `obj doc` — a JSON object, read as a `ClusterDoc`. -/
inductive FileData where
  | corrupt
  | nonObject
  | obj (doc : ClusterDoc)
  deriving DecidableEq, Repr

/-- One directory entry: filename plus content. -/
abbrev FileEntry := String × FileData

/-- The `clusters/` checkpoint directory, as the listing `os.listdir`
returns (a nonexistent directory behaves like the empty listing in
`load_existing_results`). -/
abbrev Dir := List FileEntry

/-! ## Python string primitives -/

/-- Auxiliary for `pySplit`: split a character list on a separator,
accumulating the current (reversed) segment. -/
def splitAux (sep : Char) : List Char → List Char → List (List Char)
  | [], cur => [cur.reverse]
  | c :: cs, cur =>
    if c = sep then cur.reverse :: splitAux sep cs []
    else splitAux sep cs (c :: cur)

/-- Python `s.split(sep)` for a one-character separator: splits at every
occurrence, keeping empty segments (`"".split("_") == [""]`,
`"a_".split("_") == ["a", ""]`). -/
def pySplit (s : String) (sep : Char) : List String :=
  (splitAux sep s.data []).map fun l => ⟨l⟩

/-- Python `s.startswith(pre)`. -/
def pyStartsWith (s pre : String) : Bool :=
  pre.data.isPrefixOf s.data

/-- Python `s.endswith(suf)`. -/
def pyEndsWith (s suf : String) : Bool :=
  suf.data.isSuffixOf s.data

/-- Decimal digits of a candidate integer literal, most significant first;
`none` as soon as a non-digit appears. -/
def parseDigitsAux (acc : Nat) : List Char → Option Nat
  | [] => some acc
  | c :: cs =>
    if c.isDigit then parseDigitsAux (10 * acc + (c.toNat - 48)) cs
    else none

/-- Python `int(s)` restricted to the strings this script can feed it
(segments produced by `split("_")`, hence never containing an underscore):
surrounding whitespace is stripped, an optional single sign is allowed, and
the remainder must be one or more decimal digits; `none` models the
`ValueError` Python raises otherwise. -/
def pyInt (s : String) : Option Int :=
  let t := (s.data.dropWhile Char.isWhitespace).reverse.dropWhile Char.isWhitespace |>.reverse
  match t with
  | [] => none
  | '+' :: cs =>
    match cs with
    | [] => none
    | _ => (parseDigitsAux 0 cs).map Int.ofNat
  | '-' :: cs =>
    match cs with
    | [] => none
    | _ => (parseDigitsAux 0 cs).map fun v => -(v : Int)
  | cs => (parseDigitsAux 0 cs).map Int.ofNat

/-! ## Python `dict` with string keys (insertion-ordered association list) -/

/-- `key in d` for a Python dict modelled as an association list. -/
def dictContains (d : List (String × ClusterDoc)) (k : String) : Bool :=
  d.any fun e => e.1 = k

/-- `d[k] = v` for a Python dict: overwrite in place when the key exists
(keeping its position, as Python does), append otherwise. -/
def dictInsert (d : List (String × ClusterDoc)) (k : String) (v : ClusterDoc) :
    List (String × ClusterDoc) :=
  if dictContains d k then d.map fun e => if e.1 = k then (k, v) else e
  else d ++ [(k, v)]

/-! ## Checkpoint Store -/

/-- Body of the scan loop of `load_existing_results` for one directory
entry: only `.json` files are considered; a file on which `json.load`
raises is skipped (`except (json.JSONDecodeError, KeyError): continue`), as
is a parsed object without a `cluster_id` (`data.get` returns `None`); a
file parsing to non-object JSON makes `data.get("cluster_id")` raise
`AttributeError`, which the `except` clause does not catch (`none`);
otherwise the document is recorded under `str(cluster_id)`. -/
def loadStep (acc : List (String × ClusterDoc)) (e : FileEntry) :
    Option (List (String × ClusterDoc)) :=
  if pyEndsWith e.1 ".json" then
    match e.2 with
    | .corrupt => some acc
    | .nonObject => none
    | .obj doc =>
      match doc.cluster_id with
      | none => some acc
      | some cid => some (dictInsert acc (pyStr cid) doc)
  else some acc

/-- The scan loop over the listing, left to right, stopping with `none`
when an entry raises beyond the two caught exception types. -/
def loadScan (acc : List (String × ClusterDoc)) :
    Dir → Option (List (String × ClusterDoc))
  | [] => some acc
  | e :: rest =>
    match loadStep acc e with
    | none => none
    | some acc2 => loadScan acc2 rest

/-- `load_existing_results`: scan the checkpoint directory; for each `.json`
file, parse it and, when it parses to an object carrying a `cluster_id`,
record it under `str(cluster_id)`; parse failures and missing ids are
silently skipped, but a `.json` file parsing to non-object JSON aborts the
whole scan with an uncaught `AttributeError` (`none`). -/
def load_existing_results (dir : Dir) : Option (List (String × ClusterDoc)) :=
  loadScan [] dir

/-- Filename used by `save_cluster_result` for a given (string) cluster id. -/
def clusterFileName (cluster_id : String) : String :=
  "cluster_" ++ cluster_id ++ ".json"

/-- Write a file into the directory, fully overwriting an existing file of
the same name (keeping its listing position) and appending otherwise. -/
def dirWrite (dir : Dir) (name : String) (content : FileData) : Dir :=
  if dir.any fun e => e.1 = name then
    dir.map fun e => if e.1 = name then (name, content) else e
  else dir ++ [(name, content)]

/-- `save_cluster_result`: persist one result document (a JSON object) as
`cluster_<id>.json` (overwrite semantics). -/
def save_cluster_result (dir : Dir) (cluster_id : String) (doc : ClusterDoc) : Dir :=
  dirWrite dir (clusterFileName cluster_id) (.obj doc)

/-! ## Result Aggregator (`combine_results`) -/

/-- The sort key `lambda x: int(x.split("_")[1].split(".")[0]) if
x.startswith("cluster_") else 0` used on every filename in the directory.
`none` models `int(...)` raising `ValueError`.  (When the name starts with
`"cluster_"` the split on `'_'` has at least two segments, so Python's `[1]`
cannot raise and `getD` is exact.) -/
def combineSortKey (x : String) : Option Int :=
  if pyStartsWith x "cluster_" then
    pyInt ((pySplit ((pySplit x '_').getD 1 "") '.').getD 0 "")
  else some 0

/-- The sort key as the comparison uses it once every key is known to
compute (the `getD 0` is never exercised under `combineAllKeysOk`). -/
def combineKeyVal (x : String) : Int :=
  (combineSortKey x).getD 0

/-- `sorted` raises as soon as the key function raises on any listing
entry; this guard is `true` exactly when no key raises. -/
def combineAllKeysOk (dir : Dir) : Bool :=
  dir.all fun e => (combineSortKey e.1).isSome

/-- The comparison `sorted` performs: key of the first file at most the key
of the second. -/
def fileLe (a b : FileEntry) : Prop :=
  combineKeyVal a.1 ≤ combineKeyVal b.1

instance : DecidableRel fileLe := fun a b =>
  (inferInstance : Decidable (combineKeyVal a.1 ≤ combineKeyVal b.1))

instance : IsTotal FileEntry fileLe :=
  ⟨fun a b => Int.le_total (combineKeyVal a.1) (combineKeyVal b.1)⟩

instance : IsTrans FileEntry fileLe := ⟨fun _ _ _ => Int.le_trans⟩

/-- Stable sort of the directory listing by `combineKeyVal` (Python's
`sorted` is a stable sort; insertion sort keeps ties in listing order the
same way). -/
def sortFiles (dir : Dir) : List FileEntry :=
  List.insertionSort fileLe dir

/-- Read every file of a listing the way the aggregation step consumes it:
a file on which `json.load` raises aborts the read loop, and a file parsing
to non-object JSON survives the read but makes the summaries loop's
`r.get(...)` raise `AttributeError`; either way the aggregation produces
nothing (`none` — though for a non-object the combined JSON may already be
on disk when the crash happens); otherwise the object documents in listing
order. -/
def seqDocs : List FileEntry → Option (List ClusterDoc)
  | [] => some []
  | (_, .obj d) :: rest => (seqDocs rest).map fun ds => d :: ds
  | _ :: _ => none

/-- The combined JSON document `{"clusters": ..., "model": ...}`. -/
structure CombinedReport where
  clusters : List ClusterDoc
  model : String
  deriving DecidableEq, Repr

/-- One row of the summaries TSV. -/
structure SummaryRow where
  cluster_id : Option JVal
  dominant_process : Option String
  pathway_confidence : Option String
  summary : Option String
  num_established : Nat
  num_novel : Nat
  num_uncharacterized : Nat
  deriving DecidableEq, Repr

/-- The row `combine_results` derives from one parsed result document:
the three counts are `len(r.get(..., []))`, so a missing list counts 0. -/
def summaryRow (r : ClusterDoc) : SummaryRow :=
  { cluster_id := r.cluster_id
    dominant_process := r.dominant_process
    pathway_confidence := r.pathway_confidence
    summary := r.summary
    num_established := (r.established_genes.getD []).length
    num_novel := (r.novel_role_genes.getD []).length
    num_uncharacterized := (r.uncharacterized_genes.getD []).length }

/-- `combine_results`: sort the listing by the filename key (any key failure
aborts), read every `.json` file in sorted order (any parse failure aborts —
there is no error handling here), and build the combined report and the
summary table.  `none` models the uncaught exception propagating out. -/
def combine_results (model_name : String) (dir : Dir) :
    Option (CombinedReport × List SummaryRow) :=
  if combineAllKeysOk dir then
    let files := (sortFiles dir).filter fun e => pyEndsWith e.1 ".json"
    match seqDocs files with
    | none => none
    | some docs => some ({ clusters := docs, model := model_name }, docs.map summaryRow)
  else none

/-- Base name of the two aggregate output files:
`model_name.replace("/", "_") + "_results"`; they are written directly in
the output directory, not under `clusters/`. -/
def combineOutputBase (model_name : String) : String :=
  ⟨model_name.data.map fun c => if c = '/' then '_' else c⟩ ++ "_results"

/-! ## Batch Runner (the per-item loop of `main`) -/

/-- One work item: the cluster row handed to the analyzer.  `cluster_id` is
the value of `row["cluster_id"]`; the rest of the row, the gene annotations
and the screen context are opaque to this layer and are identified by the
item itself when the analyzer is modelled as a function on items. -/
structure WorkItem where
  cluster_id : JVal
  deriving DecidableEq, Repr

/-- Outcome of `analyzer.analyze(...)` for one item: either an exception
(`err`) or a returned object whose `result.clusters` dict (insertion
ordered, analyzer-chosen string keys) is given as an association list. -/
inductive AnalyzerOutcome where
  | err
  | ok (clusters : List (String × ClusterDoc))
  deriving DecidableEq, Repr

/-- State threaded through the loop of `main`: the checkpoint directory, the
in-memory `completed` dict, the `skipped` counter, the number of analyzer
invocations made, and the ids for which an analysis error was logged
(`tqdm.write(f"Error analyzing cluster {cluster_id}: {e}")`). -/
structure RunState where
  dir : Dir
  completed : List (String × ClusterDoc)
  skipped : Nat
  calls : Nat
  errLog : List String
  deriving DecidableEq, Repr

/-- The body of `for i in range(total_clusters)` for one item: skip when
`cluster_id in completed`; otherwise call the analyzer; an exception is
logged and the loop continues; a result with a nonempty `clusters` dict has
its first entry's document re-keyed to the caller's `cluster_id`, saved, and
added to `completed`; an empty `clusters` dict does nothing further. -/
def processItem (analyze : WorkItem → AnalyzerOutcome) (st : RunState)
    (item : WorkItem) : RunState :=
  let cluster_id := pyStr item.cluster_id
  if dictContains st.completed cluster_id then
    { st with skipped := st.skipped + 1 }
  else
    match analyze item with
    | .err =>
      { st with calls := st.calls + 1, errLog := st.errLog ++ [cluster_id] }
    | .ok clusters =>
      match clusters with
      | [] => { st with calls := st.calls + 1 }
      | (_, cres) :: _ =>
        let doc := { cres with cluster_id := some (.s cluster_id) }
        { st with
          calls := st.calls + 1
          dir := save_cluster_result st.dir cluster_id doc
          completed := dictInsert st.completed cluster_id doc }

/-- The whole loop over the work items, in input order. -/
def runBatch (analyze : WorkItem → AnalyzerOutcome) (st : RunState)
    (items : List WorkItem) : RunState :=
  items.foldl (processItem analyze) st

/-- Initial loop state over a given checkpoint directory, when loading the
existing checkpoints completes: `completed` is the scan result, counters at
zero.  `none` models the scan aborting — `main` then dies at line 177,
before any item is processed. -/
def initState (dir : Dir) : Option RunState :=
  (load_existing_results dir).map fun completed =>
    { dir := dir, completed := completed, skipped := 0, calls := 0,
      errLog := [] }

/-- The processing phase of `main`: parse `--resume` (the flag is never read
afterwards, so it is accepted and ignored), load existing checkpoints
(aborting the run if that scan raises), and run the loop. -/
def mainRun (resume : Bool) (analyze : WorkItem → AnalyzerOutcome)
    (items : List WorkItem) (dir : Dir) : Option RunState :=
  (initState dir).map fun st => runBatch analyze st items

/-- `main` end to end (for the parts in scope): the loop followed by
`combine_results` on the directory the loop left behind; `none` when the
checkpoint scan already aborted the run. -/
def mainFull (resume : Bool) (analyze : WorkItem → AnalyzerOutcome)
    (items : List WorkItem) (dir : Dir) (model_name : String) :
    Option (RunState × Option (CombinedReport × List SummaryRow)) :=
  (mainRun resume analyze items dir).map fun st =>
    (st, combine_results model_name st.dir)

/-! ## Dictionary lemmas -/

/-- Membership of a key in a plain list of keys (decidable form). -/
def keyMem (K : List String) (k : String) : Bool :=
  K.any fun x => x = k

theorem any_map_general {α β : Type} (f : α → β) (p : β → Bool) (l : List α) :
    (l.map f).any p = l.any fun a => p (f a) := by
  induction l with
  | nil => rfl
  | cons x xs ih => simp only [List.map_cons, List.any_cons, ih]

theorem dictContains_eq_keyMem (d : List (String × ClusterDoc)) (k : String) :
    dictContains d k = keyMem (d.map Prod.fst) k := by
  simp only [dictContains, keyMem]
  rw [any_map_general]

theorem dictContains_iff {d : List (String × ClusterDoc)} {k : String} :
    dictContains d k = true ↔ ∃ v, (k, v) ∈ d := by
  simp only [dictContains, List.any_eq_true, decide_eq_true_eq]
  constructor
  · rintro ⟨⟨k', v⟩, hm, rfl⟩
    exact ⟨v, hm⟩
  · rintro ⟨v, hm⟩
    exact ⟨(k, v), hm, rfl⟩

theorem dictInsert_fresh {d : List (String × ClusterDoc)} {k : String}
    (v : ClusterDoc) (h : dictContains d k = false) :
    dictInsert d k v = d ++ [(k, v)] := by
  simp [dictInsert, h]

theorem contains_dictInsert_self (d : List (String × ClusterDoc))
    (k : String) (v : ClusterDoc) :
    dictContains (dictInsert d k v) k = true := by
  by_cases hc : dictContains d k = true
  · simp only [dictInsert, hc, if_true]
    obtain ⟨w, hw⟩ := dictContains_iff.mp hc
    refine List.any_eq_true.mpr ⟨(k, v), List.mem_map.mpr ⟨(k, w), hw, by simp⟩, by simp⟩
  · rw [dictInsert_fresh v (Bool.not_eq_true _ ▸ hc)]
    simp [dictContains]

theorem any_congr_mem {α : Type} {l : List α} {p q : α → Bool}
    (h : ∀ a ∈ l, p a = q a) : l.any p = l.any q := by
  induction l with
  | nil => rfl
  | cons x xs ih =>
    simp only [List.any_cons, h x (by simp), ih fun a ha => h a (by simp [ha])]

theorem contains_dictInsert_ne {k' k : String} (d : List (String × ClusterDoc))
    (v : ClusterDoc) (h : k' ≠ k) :
    dictContains (dictInsert d k v) k' = dictContains d k' := by
  by_cases hc : dictContains d k = true
  · rw [dictInsert, if_pos hc, dictContains, dictContains, any_map_general]
    refine any_congr_mem fun e _ => ?_
    by_cases he : e.1 = k <;> simp [he, Ne.symm h]
  · rw [dictInsert_fresh v (Bool.not_eq_true _ ▸ hc)]
    simp [dictContains, Ne.symm h]

theorem contains_dictInsert_of {d : List (String × ClusterDoc)} {k' : String}
    (k : String) (v : ClusterDoc) (h : dictContains d k' = true) :
    dictContains (dictInsert d k v) k' = true := by
  by_cases hk : k' = k
  · subst hk; exact contains_dictInsert_self d k' v
  · rw [contains_dictInsert_ne d v hk]; exact h

theorem mem_dictInsert {d : List (String × ClusterDoc)} {k : String}
    {v : ClusterDoc} {p : String × ClusterDoc} (h : p ∈ dictInsert d k v) :
    p = (k, v) ∨ p ∈ d := by
  by_cases hc : dictContains d k = true
  · simp only [dictInsert, hc, if_true] at h
    obtain ⟨e, he, himg⟩ := List.mem_map.mp h
    by_cases hek : e.1 = k
    · left; simp [hek] at himg; exact himg.symm
    · right; simp [hek] at himg; exact himg ▸ he
  · rw [dictInsert_fresh v (Bool.not_eq_true _ ▸ hc)] at h
    rcases List.mem_append.mp h with h' | h'
    · exact Or.inr h'
    · exact Or.inl (by simpa using h')

/-! ## Filename and directory lemmas -/

theorem clusterFileName_endsWith_json (c : String) :
    pyEndsWith (clusterFileName c) ".json" = true := by
  simp only [pyEndsWith, clusterFileName, String.data_append]
  exact List.isSuffixOf_iff_suffix.mpr (List.suffix_append _ _)

theorem clusterFileName_inj {a b : String}
    (h : clusterFileName a = clusterFileName b) : a = b := by
  have hd : ("cluster_".data ++ a.data) ++ ".json".data
      = ("cluster_".data ++ b.data) ++ ".json".data := by
    have := congrArg String.data h
    simpa [clusterFileName, String.data_append] using this
  have h2 := List.append_cancel_left (List.append_cancel_right hd)
  cases a; cases b
  exact congrArg String.mk h2

/-- Content of the file of a given name, as association-list lookup on the
listing. -/
def dirLookup (dir : Dir) (name : String) : Option FileData :=
  (dir.find? fun e => e.1 = name).map Prod.snd

theorem dirWrite_fresh {dir : Dir} {name : String} (content : FileData)
    (h : (dir.any fun e => e.1 = name) = false) :
    dirWrite dir name content = dir ++ [(name, content)] := by
  simp [dirWrite, h]

theorem dirLookup_dirWrite_self (dir : Dir) (name : String) (content : FileData) :
    dirLookup (dirWrite dir name content) name = some content := by
  by_cases hc : (dir.any fun e => e.1 = name) = true
  · rw [dirWrite, if_pos hc, dirLookup]
    induction dir with
    | nil => simp [dictContains] at hc
    | cons e d ih =>
      by_cases he : e.1 = name
      · simp [List.find?_cons, he]
      · simp only [List.any_cons, Bool.or_eq_true, decide_eq_true_eq] at hc
        rcases hc with hc | hc
        · exact absurd hc he
        · simp only [List.map_cons, if_neg he]
          rw [List.find?_cons_of_neg _ (by simpa using he)]
          exact ih hc
  · rw [dirWrite_fresh content (Bool.not_eq_true _ ▸ hc)]
    rw [dirLookup]
    have hnone : dir.find? (fun e => decide (e.1 = name)) = none := by
      apply List.find?_eq_none.mpr
      intro e he
      have := List.any_eq_false.mp (Bool.not_eq_true _ ▸ hc) e he
      simpa using this
    rw [List.find?_append, hnone]
    simp

/-! ## Lemmas about `load_existing_results` -/

/-- An entry is invisible to discovery when it is not a `.json` file, when
`json.load` raises on it (caught), or when it parses to an object with no
`cluster_id`. -/
def loadSkippable (e : FileEntry) : Prop :=
  pyEndsWith e.1 ".json" = false ∨ e.2 = FileData.corrupt ∨
    ∃ doc, e.2 = FileData.obj doc ∧ doc.cluster_id = none

theorem loadStep_skip {e : FileEntry} (h : loadSkippable e)
    (acc : List (String × ClusterDoc)) : loadStep acc e = some acc := by
  rcases h with h | h | ⟨doc, hdoc, hid⟩
  · simp [loadStep, h]
  · simp [loadStep, h]
  · rcases e with ⟨name, data⟩
    cases hdoc
    by_cases hj : pyEndsWith name ".json" = true <;> simp [loadStep, hj, hid]

theorem loadScan_skip {e : FileEntry} (h : loadSkippable e) :
    ∀ (l1 : Dir) (acc : List (String × ClusterDoc)) (l2 : Dir),
      loadScan acc (l1 ++ e :: l2) = loadScan acc (l1 ++ l2)
  | [], acc, l2 => by
    show (match loadStep acc e with
      | none => none
      | some acc2 => loadScan acc2 l2) = loadScan acc ([] ++ l2)
    rw [loadStep_skip h]
    rfl
  | x :: l1, acc, l2 => by
    show (match loadStep acc x with
        | none => none
        | some acc2 => loadScan acc2 (l1 ++ e :: l2))
      = (match loadStep acc x with
        | none => none
        | some acc2 => loadScan acc2 (l1 ++ l2))
    cases loadStep acc x with
    | none => rfl
    | some acc2 => exact loadScan_skip h l1 acc2 l2

theorem load_skip (l1 l2 : Dir) (e : FileEntry) (h : loadSkippable e) :
    load_existing_results (l1 ++ e :: l2) = load_existing_results (l1 ++ l2) :=
  loadScan_skip h l1 [] l2

theorem mem_loadScan {p : String × ClusterDoc} :
    ∀ (dir : Dir) (acc res : List (String × ClusterDoc)),
      loadScan acc dir = some res → p ∈ res →
      p ∈ acc ∨ ∃ name doc cid, (name, FileData.obj doc) ∈ dir ∧
        pyEndsWith name ".json" = true ∧ doc.cluster_id = some cid ∧
        p.1 = pyStr cid ∧ p.2 = doc
  | [], acc, res, hscan, hp => by
    cases hscan
    exact Or.inl hp
  | e :: dir, acc, res, hscan, hp => by
    rcases e with ⟨name, data⟩
    by_cases hj : pyEndsWith name ".json" = true
    · match data with
      | .corrupt =>
        have hscan2 : loadScan acc dir = some res := by
          simpa [loadScan, loadStep, hj] using hscan
        rcases mem_loadScan dir acc res hscan2 hp with h' | ⟨n, doc, cid, hm, h2, h3, h4, h5⟩
        · exact Or.inl h'
        · exact Or.inr ⟨n, doc, cid, List.mem_cons_of_mem _ hm, h2, h3, h4, h5⟩
      | .nonObject =>
        exact absurd hscan (by simp [loadScan, loadStep, hj])
      | .obj doc =>
        match hcid : doc.cluster_id with
        | none =>
          have hscan2 : loadScan acc dir = some res := by
            simpa [loadScan, loadStep, hj, hcid] using hscan
          rcases mem_loadScan dir acc res hscan2 hp with h' | ⟨n, d, cid, hm, h2, h3, h4, h5⟩
          · exact Or.inl h'
          · exact Or.inr ⟨n, d, cid, List.mem_cons_of_mem _ hm, h2, h3, h4, h5⟩
        | some cid =>
          have hscan2 : loadScan (dictInsert acc (pyStr cid) doc) dir = some res := by
            simpa [loadScan, loadStep, hj, hcid] using hscan
          rcases mem_loadScan dir _ res hscan2 hp with h' | ⟨n, d, c, hm, h2, h3, h4, h5⟩
          · rcases mem_dictInsert h' with h'' | h''
            · right
              exact ⟨name, doc, cid, List.mem_cons_self _ _, hj, hcid,
                by simp [h''], by simp [h'']⟩
            · exact Or.inl h''
          · exact Or.inr ⟨n, d, c, List.mem_cons_of_mem _ hm, h2, h3, h4, h5⟩
    · have hscan2 : loadScan acc dir = some res := by
        simpa [loadScan, loadStep, Bool.not_eq_true _ ▸ hj] using hscan
      rcases mem_loadScan dir acc res hscan2 hp with h' | ⟨n, d, c, hm, h2, h3, h4, h5⟩
      · exact Or.inl h'
      · exact Or.inr ⟨n, d, c, List.mem_cons_of_mem _ hm, h2, h3, h4, h5⟩

theorem mem_load_existing {p : String × ClusterDoc} {dir : Dir}
    {res : List (String × ClusterDoc)}
    (hres : load_existing_results dir = some res) (h : p ∈ res) :
    ∃ name doc cid, (name, FileData.obj doc) ∈ dir ∧
      pyEndsWith name ".json" = true ∧ doc.cluster_id = some cid ∧
      p.1 = pyStr cid ∧ p.2 = doc := by
  rcases mem_loadScan dir [] res hres h with h' | h'
  · cases h'
  · exact h'

theorem loadScan_nonObject {name : String}
    (hjson : pyEndsWith name ".json" = true) :
    ∀ (dir : Dir) (acc : List (String × ClusterDoc)),
      (name, FileData.nonObject) ∈ dir → loadScan acc dir = none
  | [], _, hmem => absurd hmem (List.not_mem_nil _)
  | e :: dir, acc, hmem => by
    rcases List.mem_cons.mp hmem with rfl | hmem'
    · simp [loadScan, loadStep, hjson]
    · show (match loadStep acc e with
        | none => none
        | some acc2 => loadScan acc2 dir) = none
      cases loadStep acc e with
      | none => rfl
      | some acc2 => exact loadScan_nonObject hjson dir acc2 hmem'

/-- A `.json` file parsing to non-object JSON aborts the whole checkpoint
scan: `data.get` raises `AttributeError`, which nothing catches. -/
theorem load_nonObject_abort {dir : Dir} {name : String}
    (hmem : (name, FileData.nonObject) ∈ dir)
    (hjson : pyEndsWith name ".json" = true) :
    load_existing_results dir = none :=
  loadScan_nonObject hjson dir [] hmem

/-! ## Checkpoint directories produced by the script itself -/

/-- The directory entry `save_cluster_result` leaves for a saved pair
(string id, document). -/
def entryOf (p : String × ClusterDoc) : FileEntry :=
  (clusterFileName p.1, FileData.obj p.2)

/-- Every saved document carries its own (string) id in `cluster_id`. -/
def GoodSaved (saved : List (String × ClusterDoc)) : Prop :=
  ∀ p ∈ saved, p.2.cluster_id = some (JVal.s p.1)

theorem loadStep_entryOf {p : String × ClusterDoc}
    (h : p.2.cluster_id = some (JVal.s p.1))
    (acc : List (String × ClusterDoc)) :
    loadStep acc (entryOf p) = some (dictInsert acc p.1 p.2) := by
  simp [loadStep, entryOf, clusterFileName_endsWith_json, h, pyStr]

theorem loadScan_savedlist :
    ∀ (saved : List (String × ClusterDoc)) (acc : List (String × ClusterDoc)),
      GoodSaved saved → (saved.map Prod.fst).Nodup →
      (∀ k ∈ saved.map Prod.fst, dictContains acc k = false) →
      loadScan acc (saved.map entryOf) = some (acc ++ saved)
  | [], acc, _, _, _ => by simp [loadScan]
  | p :: saved, acc, hg, hn, hf => by
    have hstep : loadStep acc (entryOf p) = some (acc ++ [p]) := by
      rw [loadStep_entryOf (hg p (List.mem_cons_self _ _)) acc]
      rw [dictInsert_fresh _ (hf p.1 (by simp))]
    have hn2 : (p.1 :: saved.map Prod.fst).Nodup := by simpa using hn
    have hn' : (saved.map Prod.fst).Nodup := (List.nodup_cons.mp hn2).2
    have hp1 : p.1 ∉ saved.map Prod.fst := (List.nodup_cons.mp hn2).1
    have hf' : ∀ k ∈ saved.map Prod.fst, dictContains (acc ++ [p]) k = false := by
      intro k hk
      have h1 : dictContains acc k = false := hf k (List.mem_cons_of_mem _ hk)
      have h2 : p.1 ≠ k := fun h => hp1 (h ▸ hk)
      show (acc ++ [p]).any (fun e => decide (e.1 = k)) = false
      rw [List.any_append, show acc.any (fun e => decide (e.1 = k)) = false from h1]
      simp [h2]
    have ih := loadScan_savedlist saved (acc ++ [p])
      (fun q hq => hg q (List.mem_cons_of_mem _ hq)) hn' hf'
    show (match loadStep acc (entryOf p) with
      | none => none
      | some acc2 => loadScan acc2 (saved.map entryOf)) = _
    rw [hstep]
    simp only [ih, List.append_assoc, List.singleton_append]

theorem load_savedlist (saved : List (String × ClusterDoc))
    (hg : GoodSaved saved) (hn : (saved.map Prod.fst).Nodup) :
    load_existing_results (saved.map entryOf) = some saved := by
  have h := loadScan_savedlist saved [] hg hn (by simp [dictContains])
  simpa [load_existing_results] using h

/-! ## Lemmas about `combine_results` -/

/-- Decidable test for "this file parsed to a JSON object". -/
def isObjData : FileData → Bool
  | .obj _ => true
  | _ => false

theorem seqDocs_none {name : String} {bad : FileData}
    (hbad : ∀ d, bad ≠ FileData.obj d) :
    ∀ {l : List FileEntry}, (name, bad) ∈ l → seqDocs l = none
  | [], h => by cases h
  | (n, data) :: rest, h => by
    match data with
    | .corrupt => rfl
    | .nonObject => rfl
    | .obj d =>
      rcases List.mem_cons.mp h with h' | h'
      · exact absurd (congrArg Prod.snd h') (hbad d)
      · simp [seqDocs, seqDocs_none hbad h']

theorem seqDocs_total :
    ∀ (l : List FileEntry), (∀ e ∈ l, isObjData e.2 = true) →
      ∃ docs, seqDocs l = some docs ∧ docs.length = l.length
  | [], _ => ⟨[], rfl, rfl⟩
  | (n, data) :: rest, h => by
    match data with
    | .corrupt =>
      exact absurd (h (n, .corrupt) (List.mem_cons_self _ _)) (by simp [isObjData])
    | .nonObject =>
      exact absurd (h (n, .nonObject) (List.mem_cons_self _ _)) (by simp [isObjData])
    | .obj d =>
      obtain ⟨docs, h1, h2⟩ := seqDocs_total rest fun e he => h e (List.mem_cons_of_mem _ he)
      exact ⟨d :: docs, by simp [seqDocs, h1], by simp [h2]⟩

theorem mem_sortFiles {e : FileEntry} {dir : Dir} (h : e ∈ dir) :
    e ∈ sortFiles dir :=
  (List.perm_insertionSort fileLe dir).mem_iff.mpr h

theorem combine_none_of_corrupt {m name : String} {dir : Dir}
    (hmem : (name, FileData.corrupt) ∈ dir)
    (hjson : pyEndsWith name ".json" = true) :
    combine_results m dir = none := by
  by_cases hk : combineAllKeysOk dir = true
  · have hmem2 : (name, FileData.corrupt) ∈
        (sortFiles dir).filter fun e => pyEndsWith e.1 ".json" :=
      List.mem_filter.mpr ⟨mem_sortFiles hmem, hjson⟩
    simp [combine_results, hk, seqDocs_none (fun d h => FileData.noConfusion h) hmem2]
  · simp [combine_results, Bool.not_eq_true _ ▸ hk]

theorem combine_none_of_badkey {m name : String} {d : FileData} {dir : Dir}
    (hmem : (name, d) ∈ dir) (hbad : combineSortKey name = none) :
    combine_results m dir = none := by
  have hk : combineAllKeysOk dir = false := by
    apply Bool.eq_false_iff.mpr
    intro h
    have := List.all_eq_true.mp h (name, d) hmem
    simp [hbad] at this
  simp [combine_results, hk]

/-! ## Lemmas about the batch loop -/

theorem processItem_skip {A : WorkItem → AnalyzerOutcome} {st : RunState}
    {it : WorkItem} (h : dictContains st.completed (pyStr it.cluster_id) = true) :
    processItem A st it = { st with skipped := st.skipped + 1 } := by
  simp [processItem, h]

theorem processItem_err {A : WorkItem → AnalyzerOutcome} {st : RunState}
    {it : WorkItem} (h : dictContains st.completed (pyStr it.cluster_id) = false)
    (hA : A it = .err) :
    processItem A st it =
      { st with calls := st.calls + 1,
                errLog := st.errLog ++ [pyStr it.cluster_id] } := by
  simp [processItem, h, hA]

theorem processItem_emptyResp {A : WorkItem → AnalyzerOutcome} {st : RunState}
    {it : WorkItem} (h : dictContains st.completed (pyStr it.cluster_id) = false)
    (hA : A it = .ok []) :
    processItem A st it = { st with calls := st.calls + 1 } := by
  simp [processItem, h, hA]

theorem processItem_save {A : WorkItem → AnalyzerOutcome} {st : RunState}
    {it : WorkItem} {k : String} {cres : ClusterDoc}
    {t : List (String × ClusterDoc)}
    (h : dictContains st.completed (pyStr it.cluster_id) = false)
    (hA : A it = .ok ((k, cres) :: t)) :
    processItem A st it =
      { st with
        calls := st.calls + 1
        dir := save_cluster_result st.dir (pyStr it.cluster_id)
          { cres with cluster_id := some (.s (pyStr it.cluster_id)) }
        completed := dictInsert st.completed (pyStr it.cluster_id)
          { cres with cluster_id := some (.s (pyStr it.cluster_id)) } } := by
  simp [processItem, h, hA]

theorem contains_processItem_mono {A : WorkItem → AnalyzerOutcome}
    {st : RunState} {it : WorkItem} {key : String}
    (h : dictContains st.completed key = true) :
    dictContains (processItem A st it).completed key = true := by
  by_cases hc : dictContains st.completed (pyStr it.cluster_id) = true
  · rw [processItem_skip hc]; exact h
  · have hc' := Bool.not_eq_true _ ▸ hc
    match hA : A it with
    | .err => rw [processItem_err hc' hA]; exact h
    | .ok [] => rw [processItem_emptyResp hc' hA]; exact h
    | .ok ((k, cres) :: t) =>
      rw [processItem_save hc' hA]
      exact contains_dictInsert_of _ _ h

theorem contains_runBatch_mono {A : WorkItem → AnalyzerOutcome} {key : String} :
    ∀ (items : List WorkItem) (st : RunState),
      dictContains st.completed key = true →
      dictContains (runBatch A st items).completed key = true
  | [], _, h => h
  | it :: items, st, h =>
    contains_runBatch_mono items (processItem A st it) (contains_processItem_mono h)

theorem runBatch_all_skip {A : WorkItem → AnalyzerOutcome} :
    ∀ (items : List WorkItem) (st : RunState),
      (∀ it ∈ items, dictContains st.completed (pyStr it.cluster_id) = true) →
      runBatch A st items = { st with skipped := st.skipped + items.length }
  | [], st, _ => by simp [runBatch]
  | it :: items, st, h => by
    have hstep := processItem_skip (A := A) (h it (List.mem_cons_self _ _))
    have ih := runBatch_all_skip (A := A) items { st with skipped := st.skipped + 1 }
      (fun x hx => h x (List.mem_cons_of_mem _ hx))
    show runBatch A (processItem A st it) items = _
    rw [hstep, ih]
    have : st.skipped + 1 + items.length = st.skipped + (items.length + 1) := by omega
    simp [this]

/-! ## Counting lemmas -/

theorem keyMem_iff {K : List String} {k : String} : keyMem K k = true ↔ k ∈ K := by
  simp only [keyMem, List.any_eq_true, decide_eq_true_eq]
  constructor
  · rintro ⟨x, hx, rfl⟩
    exact hx
  · intro h
    exact ⟨k, h, rfl⟩

theorem length_filter_add {α : Type} :
    ∀ (l : List α) (p : α → Bool),
      (l.filter p).length + (l.filter fun a => !p a).length = l.length
  | [], _ => rfl
  | x :: l, p => by
    by_cases hx : p x = true
    · rw [List.filter_cons_of_pos hx, List.filter_cons_of_neg (by simp [hx])]
      have := length_filter_add l p
      simp only [List.length_cons]
      omega
    · rw [List.filter_cons_of_neg (by simpa using hx),
        List.filter_cons_of_pos (by simpa using hx)]
      have := length_filter_add l p
      simp only [List.length_cons]
      omega

theorem length_filter_map {α β : Type} (f : α → β) (p : β → Bool) :
    ∀ (l : List α),
      ((l.map f).filter p).length = (l.filter fun a => p (f a)).length
  | [] => rfl
  | x :: l => by
    by_cases hx : p (f x) = true <;>
      simp [List.map_cons, hx, length_filter_map f p l]

theorem length_filter_keyMem :
    ∀ (l K : List String), l.Nodup → K.Nodup → (∀ k ∈ K, k ∈ l) →
      (l.filter fun x => keyMem K x).length = K.length
  | [], K, _, _, hsub => by
    have : K = [] := List.eq_nil_iff_forall_not_mem.mpr fun a ha => by
      simpa using hsub a ha
    subst this
    rfl
  | x :: l, K, hl, hK, hsub => by
    have hxl : x ∉ l := (List.nodup_cons.mp hl).1
    have hl' : l.Nodup := (List.nodup_cons.mp hl).2
    by_cases hx : x ∈ K
    · have hkeep : keyMem K x = true := keyMem_iff.mpr hx
      rw [List.filter_cons_of_pos hkeep]
      have hK' : (K.erase x).Nodup := hK.erase x
      have hsub' : ∀ k ∈ K.erase x, k ∈ l := by
        intro k hk
        have hkK : k ∈ K := List.mem_of_mem_erase hk
        have hne : k ≠ x := by
          intro h
          subst h
          exact (List.Nodup.not_mem_erase hK) hk
        rcases List.mem_cons.mp (hsub k hkK) with h | h
        · exact absurd h hne
        · exact h
      have hcongr : l.filter (fun y => keyMem K y)
          = l.filter fun y => keyMem (K.erase x) y := by
        apply List.filter_congr
        intro y hy
        have hyx : y ≠ x := fun h => hxl (h ▸ hy)
        by_cases hyK : y ∈ K
        · have : y ∈ K.erase x := (List.mem_erase_of_ne hyx).mpr hyK
          simp [keyMem_iff.mpr hyK, keyMem_iff.mpr this]
        · have hyE : y ∉ K.erase x := fun h => hyK (List.mem_of_mem_erase h)
          have h1 : keyMem K y = false :=
            Bool.eq_false_iff.mpr fun h => hyK (keyMem_iff.mp h)
          have h2 : keyMem (K.erase x) y = false :=
            Bool.eq_false_iff.mpr fun h => hyE (keyMem_iff.mp h)
          rw [h1, h2]
      rw [hcongr]
      have ih := length_filter_keyMem l (K.erase x) hl' hK' hsub'
      have hlen : (K.erase x).length = K.length - 1 := List.length_erase_of_mem hx
      have hpos : 1 ≤ K.length := List.length_pos.mpr fun h => by simp [h] at hx
      simp only [List.length_cons, ih, hlen]
      omega
    · have hdrop : ¬ keyMem K x = true := fun h => hx (keyMem_iff.mp h)
      rw [List.filter_cons_of_neg hdrop]
      refine length_filter_keyMem l K hl' hK fun k hk => ?_
      rcases List.mem_cons.mp (hsub k hk) with h | h
      · exact absurd (h ▸ hk) hx
      · exact h

/-- With pairwise-distinct item ids, the loop makes one analyzer call per
item whose id is not in the `completed` dict loaded at batch start, and
skips exactly the items whose id is. -/
theorem runBatch_counts {A : WorkItem → AnalyzerOutcome} :
    ∀ (items : List WorkItem) (st : RunState),
      (items.map fun it => pyStr it.cluster_id).Nodup →
      (runBatch A st items).calls = st.calls +
        (items.filter fun it =>
          !dictContains st.completed (pyStr it.cluster_id)).length ∧
      (runBatch A st items).skipped = st.skipped +
        (items.filter fun it =>
          dictContains st.completed (pyStr it.cluster_id)).length
  | [], st, _ => by simp [runBatch]
  | it :: items, st, hn => by
    have hn2 : ((pyStr it.cluster_id) ::
        items.map fun x => pyStr x.cluster_id).Nodup := by simpa using hn
    have hnt : (items.map fun x => pyStr x.cluster_id).Nodup :=
      (List.nodup_cons.mp hn2).2
    have hnotin : pyStr it.cluster_id ∉ items.map fun x => pyStr x.cluster_id :=
      (List.nodup_cons.mp hn2).1
    have hrw : runBatch A st (it :: items) = runBatch A (processItem A st it) items := rfl
    by_cases hc : dictContains st.completed (pyStr it.cluster_id) = true
    · obtain ⟨ih1, ih2⟩ :=
        runBatch_counts (A := A) items { st with skipped := st.skipped + 1 } hnt
      rw [hrw, processItem_skip hc]
      refine ⟨?_, ?_⟩
      · rw [ih1, List.filter_cons_of_neg (by simp [hc])]
      · rw [ih2, List.filter_cons_of_pos (by simp [hc])]
        simp only [List.length_cons]
        omega
    · have hc' : dictContains st.completed (pyStr it.cluster_id) = false :=
        Bool.not_eq_true _ ▸ hc
      match hA : A it with
      | .err =>
        obtain ⟨ih1, ih2⟩ := runBatch_counts (A := A) items
          { st with calls := st.calls + 1,
                    errLog := st.errLog ++ [pyStr it.cluster_id] } hnt
        rw [hrw, processItem_err hc' hA]
        refine ⟨?_, ?_⟩
        · rw [ih1, List.filter_cons_of_pos (by simp [hc'])]
          simp only [List.length_cons]
          omega
        · rw [ih2, List.filter_cons_of_neg (by simp [hc'])]
      | .ok [] =>
        obtain ⟨ih1, ih2⟩ := runBatch_counts (A := A) items
          { st with calls := st.calls + 1 } hnt
        rw [hrw, processItem_emptyResp hc' hA]
        refine ⟨?_, ?_⟩
        · rw [ih1, List.filter_cons_of_pos (by simp [hc'])]
          simp only [List.length_cons]
          omega
        · rw [ih2, List.filter_cons_of_neg (by simp [hc'])]
      | .ok ((k, cres) :: t) =>
        have hne : ∀ x ∈ items, pyStr x.cluster_id ≠ pyStr it.cluster_id := by
          intro x hx h
          exact hnotin (h ▸ List.mem_map_of_mem (fun y => pyStr y.cluster_id) hx)
        have hcongr1 : (items.filter fun x =>
              !dictContains (dictInsert st.completed (pyStr it.cluster_id)
                { cres with cluster_id := some (.s (pyStr it.cluster_id)) })
                (pyStr x.cluster_id))
            = items.filter fun x => !dictContains st.completed (pyStr x.cluster_id) := by
          apply List.filter_congr
          intro x hx
          rw [contains_dictInsert_ne _ _ (hne x hx)]
        have hcongr2 : (items.filter fun x =>
              dictContains (dictInsert st.completed (pyStr it.cluster_id)
                { cres with cluster_id := some (.s (pyStr it.cluster_id)) })
                (pyStr x.cluster_id))
            = items.filter fun x => dictContains st.completed (pyStr x.cluster_id) := by
          apply List.filter_congr
          intro x hx
          rw [contains_dictInsert_ne _ _ (hne x hx)]
        obtain ⟨ih1, ih2⟩ := runBatch_counts (A := A) items
          { st with
            calls := st.calls + 1
            dir := save_cluster_result st.dir (pyStr it.cluster_id)
              { cres with cluster_id := some (.s (pyStr it.cluster_id)) }
            completed := dictInsert st.completed (pyStr it.cluster_id)
              { cres with cluster_id := some (.s (pyStr it.cluster_id)) } } hnt
        rw [hrw, processItem_save hc' hA]
        refine ⟨?_, ?_⟩
        · rw [ih1, hcongr1, List.filter_cons_of_pos (by simp [hc'])]
          simp only [List.length_cons]
          omega
        · rw [ih2, hcongr2, List.filter_cons_of_neg (by simp [hc'])]

/-! ## The run invariant -/

/-- Invariant of the loop state relative to a universe `U` of admissible
ids: the checkpoint directory is exactly the listing left by
`save_cluster_result` for some association list `saved` whose documents
carry their own string ids, whose keys are distinct and drawn from `U`, and
which coincides with the in-memory `completed` dict. -/
def InvU (st : RunState) (U : List String) : Prop :=
  ∃ saved, st.dir = saved.map entryOf ∧ st.completed = saved ∧
    GoodSaved saved ∧ (saved.map Prod.fst).Nodup ∧
    ∀ k ∈ saved.map Prod.fst, k ∈ U

theorem processItem_inv {A : WorkItem → AnalyzerOutcome} {st : RunState}
    {it : WorkItem} {U : List String} (hU : pyStr it.cluster_id ∈ U)
    (h : InvU st U) :
    InvU (processItem A st it) U ∧ st.dir <+: (processItem A st it).dir := by
  obtain ⟨saved, hdir, hcomp, hg, hn, hsub⟩ := h
  by_cases hc : dictContains st.completed (pyStr it.cluster_id) = true
  · rw [processItem_skip hc]
    exact ⟨⟨saved, hdir, hcomp, hg, hn, hsub⟩, List.prefix_refl _⟩
  · have hc' : dictContains st.completed (pyStr it.cluster_id) = false :=
      Bool.not_eq_true _ ▸ hc
    match hA : A it with
    | .err =>
      rw [processItem_err hc' hA]
      exact ⟨⟨saved, hdir, hcomp, hg, hn, hsub⟩, List.prefix_refl _⟩
    | .ok [] =>
      rw [processItem_emptyResp hc' hA]
      exact ⟨⟨saved, hdir, hcomp, hg, hn, hsub⟩, List.prefix_refl _⟩
    | .ok ((k, cres) :: t) =>
      rw [processItem_save hc' hA]
      have hfresh : pyStr it.cluster_id ∉ saved.map Prod.fst := by
        intro hmem
        have hcon : dictContains saved (pyStr it.cluster_id) = true := by
          rw [dictContains_eq_keyMem]
          exact keyMem_iff.mpr hmem
        rw [hcomp, hcon] at hc'
        cases hc'
      have hfreshc : dictContains st.completed (pyStr it.cluster_id) = false := hc'
      have hname : ((saved.map entryOf).any fun e =>
          e.1 = clusterFileName (pyStr it.cluster_id)) = false := by
        apply List.any_eq_false.mpr
        intro e he
        obtain ⟨p, hp, rfl⟩ := List.mem_map.mp he
        simp only [entryOf, decide_eq_true_eq]
        intro hEq
        exact hfresh (clusterFileName_inj hEq ▸
          List.mem_map_of_mem Prod.fst hp)
      have hsave : save_cluster_result st.dir (pyStr it.cluster_id)
            { cres with cluster_id := some (.s (pyStr it.cluster_id)) }
          = saved.map entryOf ++
            [entryOf (pyStr it.cluster_id,
              { cres with cluster_id := some (.s (pyStr it.cluster_id)) })] := by
        rw [save_cluster_result, hdir, dirWrite_fresh _ hname]
        rfl
      refine ⟨⟨saved ++ [(pyStr it.cluster_id,
        { cres with cluster_id := some (.s (pyStr it.cluster_id)) })],
        ?_, ?_, ?_, ?_, ?_⟩, ?_⟩
      · rw [hsave]
        simp [List.map_append]
      · show dictInsert st.completed _ _ = _
        rw [hcomp] at hfreshc ⊢
        exact dictInsert_fresh _ hfreshc
      · intro p hp
        rcases List.mem_append.mp hp with h' | h'
        · exact hg p h'
        · have : p = (pyStr it.cluster_id,
              { cres with cluster_id := some (.s (pyStr it.cluster_id)) }) := by
            simpa using h'
          rw [this]
      · rw [List.map_append]
        rw [List.nodup_append]
        exact ⟨hn, List.nodup_singleton _, by simpa [List.disjoint_right] using hfresh⟩
      · intro key hk
        rw [List.map_append] at hk
        rcases List.mem_append.mp hk with h' | h'
        · exact hsub key h'
        · have : key = pyStr it.cluster_id := by simpa using h'
          exact this ▸ hU
      · rw [hdir] at *
        rw [hsave]
        exact List.prefix_append _ _

theorem runBatch_inv {A : WorkItem → AnalyzerOutcome} {U : List String} :
    ∀ (items : List WorkItem) (st : RunState),
      (∀ it ∈ items, pyStr it.cluster_id ∈ U) → InvU st U →
      InvU (runBatch A st items) U ∧ st.dir <+: (runBatch A st items).dir
  | [], _, _, h => ⟨h, List.prefix_refl _⟩
  | it :: items, st, hall, h => by
    obtain ⟨h1, h2⟩ := processItem_inv (A := A)
      (hall it (List.mem_cons_self _ _)) h
    obtain ⟨h3, h4⟩ := runBatch_inv items (processItem A st it)
      (fun x hx => hall x (List.mem_cons_of_mem _ hx)) h1
    exact ⟨h3, h2.trans h4⟩

/-- Over an empty (or absent) checkpoint directory the scan completes with
the empty mapping, so `main` starts its loop in this state. -/
theorem initState_empty :
    initState []
      = some { dir := [],
               completed := [],
               skipped := 0,
               calls := 0,
               errLog := [] } := rfl

theorem startState_empty_inv (U : List String) :
    InvU { dir := [],
           completed := [],
           skipped := 0,
           calls := 0,
           errLog := [] } U :=
  ⟨[], rfl, rfl, fun p hp => absurd hp (List.not_mem_nil p), List.nodup_nil,
    fun k hk => absurd hk (List.not_mem_nil k)⟩

/-- Over a directory written entirely by `save_cluster_result` the scan
completes, and the loop starts with `completed` equal to the saved pairs. -/
theorem initState_savedlist (saved : List (String × ClusterDoc))
    (hg : GoodSaved saved) (hn : (saved.map Prod.fst).Nodup) :
    initState (saved.map entryOf)
      = some { dir := saved.map entryOf,
               completed := saved,
               skipped := 0,
               calls := 0,
               errLog := [] } := by
  show (load_existing_results (saved.map entryOf)).map _ = _
  rw [load_savedlist saved hg hn]
  rfl

theorem startState_savedlist_inv (saved : List (String × ClusterDoc))
    (U : List String) (hg : GoodSaved saved)
    (hn : (saved.map Prod.fst).Nodup)
    (hsub : ∀ k ∈ saved.map Prod.fst, k ∈ U) :
    InvU { dir := saved.map entryOf,
           completed := saved,
           skipped := 0,
           calls := 0,
           errLog := [] } U :=
  ⟨saved, rfl, rfl, hg, hn, hsub⟩

/-! ## Fully successful analyzers -/

/-- An analyzer outcome that leads to a save: no exception and a nonempty
`result.clusters` dict. -/
def saveable : AnalyzerOutcome → Bool
  | .ok (_ :: _) => true
  | _ => false

theorem runBatch_contains_of_saveable {A : WorkItem → AnalyzerOutcome} :
    ∀ (items : List WorkItem) (st : RunState),
      (∀ it ∈ items, saveable (A it) = true) →
      ∀ it ∈ items,
        dictContains (runBatch A st items).completed (pyStr it.cluster_id) = true
  | [], _, _, it, h => absurd h (List.not_mem_nil it)
  | x :: items, st, hA, it, hmem => by
    rcases List.mem_cons.mp hmem with rfl | hmem'
    · have hsavex : saveable (A it) = true := hA it (List.mem_cons_self _ _)
      have hx : dictContains (processItem A st it).completed
          (pyStr it.cluster_id) = true := by
        by_cases hc : dictContains st.completed (pyStr it.cluster_id) = true
        · rw [processItem_skip hc]
          exact hc
        · have hc' : dictContains st.completed (pyStr it.cluster_id) = false :=
            Bool.not_eq_true _ ▸ hc
          match hA2 : A it with
          | .err => rw [hA2] at hsavex; cases hsavex
          | .ok [] => rw [hA2] at hsavex; cases hsavex
          | .ok ((k, cres) :: t) =>
            rw [processItem_save hc' hA2]
            exact contains_dictInsert_self _ _ _
      exact contains_runBatch_mono items _ hx
    · exact runBatch_contains_of_saveable items (processItem A st x)
        (fun y hy => hA y (List.mem_cons_of_mem _ hy)) it hmem'

/-! ## Claim theorems -/

/-- C1 (counterexample): an analyzer call that returns an empty
`result.clusters` dict — the claim counts a malformed/empty response as a
failure — is attempted (one call), produces no checkpoint file, yet logs
nothing: the final state shows the call count 1, an empty directory, and an
empty error log, refuting "any failure ... is caught and logged with the
item's id and error detail". -/
theorem C1_counterexample :
    mainRun false (fun _ => .ok []) [⟨.n 1⟩] []
      = some { dir := [],
               completed := [],
               skipped := 0,
               calls := 1,
               errLog := [] } := by
  decide

/-- C1 (amended): an exception raised by the analyzer for one item is
caught and logged with that item's id, no checkpoint file is written for
the item, and the batch continues with the remaining items; an analyzer
call returning an empty `clusters` dict likewise writes no checkpoint and
continues, but produces no log entry. -/
theorem C1_error_isolation :
    (∀ (A : WorkItem → AnalyzerOutcome) (st : RunState) (it : WorkItem)
        (rest : List WorkItem),
      dictContains st.completed (pyStr it.cluster_id) = false →
      A it = .err →
      runBatch A st (it :: rest) = runBatch A
        { st with calls := st.calls + 1,
                  errLog := st.errLog ++ [pyStr it.cluster_id] } rest) ∧
    (∀ (A : WorkItem → AnalyzerOutcome) (st : RunState) (it : WorkItem)
        (rest : List WorkItem),
      dictContains st.completed (pyStr it.cluster_id) = false →
      A it = .ok [] →
      runBatch A st (it :: rest)
        = runBatch A { st with calls := st.calls + 1 } rest) := by
  constructor
  · intro A st it rest h hA
    show runBatch A (processItem A st it) rest = _
    rw [processItem_err h hA]
  · intro A st it rest h hA
    show runBatch A (processItem A st it) rest = _
    rw [processItem_emptyResp h hA]

/-- Witness for C1: the amended statement applied to a one-item batch with
a raising analyzer (starting from the state `main` reaches over an empty
checkpoint directory) and to a one-item batch with an empty response. -/
theorem C1_error_isolation_witness :
    runBatch (fun _ => AnalyzerOutcome.err)
        { dir := [],
          completed := [],
          skipped := 0,
          calls := 0,
          errLog := [] } [⟨.n 3⟩]
      = runBatch (fun _ => AnalyzerOutcome.err)
        { dir := [],
          completed := [],
          skipped := 0,
          calls := 1,
          errLog := ["3"] } [] ∧
    runBatch (fun _ => AnalyzerOutcome.ok [])
        { dir := [],
          completed := [],
          skipped := 0,
          calls := 0,
          errLog := [] } [⟨.n 4⟩]
      = runBatch (fun _ => AnalyzerOutcome.ok [])
        { dir := [],
          completed := [],
          skipped := 0,
          calls := 1,
          errLog := [] } [] :=
  ⟨C1_error_isolation.1 (fun _ => AnalyzerOutcome.err)
      { dir := [], completed := [], skipped := 0, calls := 0, errLog := [] }
      ⟨.n 3⟩ [] (by decide) rfl,
   C1_error_isolation.2 (fun _ => AnalyzerOutcome.ok [])
      { dir := [], completed := [], skipped := 0, calls := 0, errLog := [] }
      ⟨.n 4⟩ [] (by decide) rfl⟩

/-- C2 (counterexample): with a corrupt checkpoint `cluster_99.json` in the
directory and one work item, discovery ignores the corrupt file and the
item is re-analyzed (one analyzer call, its checkpoint written), but the
final aggregation step aborts (`combine_results` raises on the corrupt
file), refuting "completes without aborting, including the final
aggregation step". -/
theorem C2_counterexample :
    mainFull false (fun _ => .ok [("echo", {})]) [⟨.n 1⟩]
        [("cluster_99.json", FileData.corrupt)] "m"
      = some ({ dir := [("cluster_99.json", FileData.corrupt),
                        ("cluster_1.json",
                          FileData.obj { cluster_id := some (.s "1") })],
                completed := [("1", { cluster_id := some (.s "1") })],
                skipped := 0,
                calls := 1,
                errLog := [] }, none) := by
  decide

/-- C2 (amended): a checkpoint file with invalid structured content is
ignored during discovery (removed from the scan result as if absent, so its
item is re-analyzed), but the aggregation step aborts whenever an
unparsable `.json` file is still present in the checkpoint directory — it
completes only if every such file was overwritten by a successful
re-analysis. -/
theorem C2_corruption_tolerance :
    (∀ (l1 l2 : Dir) (name : String),
      load_existing_results (l1 ++ (name, FileData.corrupt) :: l2)
        = load_existing_results (l1 ++ l2)) ∧
    (∀ (m name : String) (dir : Dir), (name, FileData.corrupt) ∈ dir →
      pyEndsWith name ".json" = true → combine_results m dir = none) :=
  ⟨fun l1 l2 name => load_skip l1 l2 _ (Or.inr (Or.inl rfl)),
   fun _ _ _ h1 h2 => combine_none_of_corrupt h1 h2⟩

/-- Witness for C2: discovery over a two-file listing with a corrupt
second file equals discovery without it, and aggregation of a directory
holding a corrupt `.json` file fails. -/
theorem C2_corruption_tolerance_witness :
    load_existing_results
        [("cluster_7.json", FileData.obj { cluster_id := some (.n 7) }),
         ("bad.json", FileData.corrupt)]
      = load_existing_results
        [("cluster_7.json", FileData.obj { cluster_id := some (.n 7) })] ∧
    combine_results "m" [("bad.json", FileData.corrupt)] = none :=
  ⟨C2_corruption_tolerance.1
      [("cluster_7.json", FileData.obj { cluster_id := some (.n 7) })] []
      "bad.json",
   C2_corruption_tolerance.2 "m" "bad.json" [("bad.json", FileData.corrupt)]
      (by decide) (by decide)⟩

/-- C3: for every item that is analyzed and saved, the persisted document's
`cluster_id` field is the string form of the WorkItem's own id — whatever
id the analyzer chose as its dict key and whatever id the returned document
itself carried. -/
theorem C3_id_fidelity (A : WorkItem → AnalyzerOutcome) (st : RunState)
    (it : WorkItem) (k : String) (cres : ClusterDoc)
    (t : List (String × ClusterDoc))
    (h : dictContains st.completed (pyStr it.cluster_id) = false)
    (hA : A it = .ok ((k, cres) :: t)) :
    ∃ doc : ClusterDoc,
      dirLookup (processItem A st it).dir
          (clusterFileName (pyStr it.cluster_id)) = some (FileData.obj doc) ∧
      doc.cluster_id = some (.s (pyStr it.cluster_id)) := by
  refine ⟨{ cres with cluster_id := some (.s (pyStr it.cluster_id)) }, ?_, rfl⟩
  rw [processItem_save h hA]
  exact dirLookup_dirWrite_self _ _ _

/-- Witness for C3: a one-item run in which the analyzer echoes the wrong
id (`"999"`, and a document declaring id 999) still files the result under
the caller's id 5, with `cluster_id` `"5"` inside the document. -/
theorem C3_id_fidelity_witness :
    ∃ doc : ClusterDoc,
      dirLookup (processItem
          (fun _ => .ok [("999", { cluster_id := some (.n 999) })])
          { dir := [],
            completed := [],
            skipped := 0,
            calls := 0,
            errLog := [] } ⟨.n 5⟩).dir
        (clusterFileName (pyStr (JVal.n 5))) = some (FileData.obj doc) ∧
      doc.cluster_id = some (.s (pyStr (JVal.n 5))) :=
  C3_id_fidelity (fun _ => .ok [("999", { cluster_id := some (.n 999) })])
    { dir := [], completed := [], skipped := 0, calls := 0, errLog := [] }
    ⟨.n 5⟩ "999" { cluster_id := some (.n 999) } []
    (by decide) rfl

/-- C4 (counterexample): a file named `cluster_abc.json` does not sort as
id 0 — the sort key calls `int("abc")`, which raises, and the whole
aggregation step fails. -/
theorem C4_counterexample :
    combine_results "m" [("cluster_abc.json", FileData.obj {})] = none := by
  decide

/-- C4 (amended): aggregation orders the listing by the numeric id of
`cluster_`-prefixed filenames, and a filename that does not start with
`cluster_` sorts as id 0; but a name that does start with `cluster_` and
whose id segment is not a valid integer makes the aggregation step fail
rather than sort as 0. -/
theorem C4_ordering :
    (∀ x : String, pyStartsWith x "cluster_" = false →
      combineSortKey x = some 0) ∧
    (∀ dir : Dir,
      List.Sorted fileLe ((sortFiles dir).filter fun e =>
        pyEndsWith e.1 ".json")) ∧
    (∀ (m name : String) (d : FileData) (dir : Dir), (name, d) ∈ dir →
      pyStartsWith name "cluster_" = true → combineSortKey name = none →
      combine_results m dir = none) := by
  refine ⟨?_, ?_, ?_⟩
  · intro x hx
    simp [combineSortKey, hx]
  · intro dir
    exact List.Pairwise.sublist (List.filter_sublist _)
      (List.sorted_insertionSort fileLe dir)
  · intro m name d dir hmem _ hbad
    exact combine_none_of_badkey hmem hbad

/-- Witness for C4: `readme.txt` keys as 0; a concrete two-file listing
sorts with its `.json` files in key order; `cluster_x.json` in a directory
makes aggregation fail. -/
theorem C4_ordering_witness :
    combineSortKey "readme.txt" = some 0 ∧
    List.Sorted fileLe ((sortFiles [("cluster_2.json", FileData.obj {}),
      ("cluster_1.json", FileData.obj {})]).filter fun e =>
        pyEndsWith e.1 ".json") ∧
    combine_results "m" [("cluster_x.json", FileData.obj {})] = none :=
  ⟨C4_ordering.1 "readme.txt" (by decide),
   C4_ordering.2.1 [("cluster_2.json", FileData.obj {}),
     ("cluster_1.json", FileData.obj {})],
   C4_ordering.2.2 "m" "cluster_x.json" (FileData.obj {})
     [("cluster_x.json", FileData.obj {})]
     (by decide) (by decide) (by decide)⟩

/-- C5: when every file in the checkpoint directory is a parsable `.json`
checkpoint with a well-formed name, aggregation succeeds, the summary table
has exactly one row per file, each row is derived from one combined-report
document, and its three count fields are the lengths of that document's
three categorized gene lists, a missing list counting as 0. -/
theorem C5_aggregation (m : String) (dir : Dir)
    (h : ∀ e ∈ dir, pyEndsWith e.1 ".json" = true ∧
      (combineSortKey e.1).isSome = true ∧ isObjData e.2 = true) :
    ∃ rep tab, combine_results m dir = some (rep, tab) ∧
      tab.length = dir.length ∧ tab = rep.clusters.map summaryRow ∧
      ∀ r ∈ rep.clusters,
        (summaryRow r).num_established = (r.established_genes.getD []).length ∧
        (summaryRow r).num_novel = (r.novel_role_genes.getD []).length ∧
        (summaryRow r).num_uncharacterized
          = (r.uncharacterized_genes.getD []).length := by
  have hk : combineAllKeysOk dir = true :=
    List.all_eq_true.mpr fun e he => by simp [(h e he).2.1]
  have hmem : ∀ e ∈ sortFiles dir, e ∈ dir := fun e he =>
    (List.perm_insertionSort fileLe dir).mem_iff.mp he
  have hfilter : ((sortFiles dir).filter fun e => pyEndsWith e.1 ".json")
      = sortFiles dir :=
    List.filter_eq_self.mpr fun e he => (h e (hmem e he)).1
  have hlen : (sortFiles dir).length = dir.length :=
    (List.perm_insertionSort fileLe dir).length_eq
  obtain ⟨docs, hseq, hdlen⟩ := seqDocs_total (sortFiles dir)
    fun e he => (h e (hmem e he)).2.2
  refine ⟨{ clusters := docs, model := m }, docs.map summaryRow, ?_, ?_, rfl,
    fun r _ => ⟨rfl, rfl, rfl⟩⟩
  · simp only [combine_results, hk, if_true, hfilter, hseq]
  · rw [List.length_map, hdlen, hlen]

/-- Witness for C5: a concrete two-checkpoint directory aggregates into a
two-row summary table with per-document list counts. -/
theorem C5_aggregation_witness :
    ∃ rep tab, combine_results "m"
        [("cluster_2.json", FileData.obj { established_genes := some ["a", "b"] }),
         ("cluster_1.json", FileData.obj {})] = some (rep, tab) ∧
      tab.length = ([("cluster_2.json",
           FileData.obj { established_genes := some ["a", "b"] }),
         ("cluster_1.json", FileData.obj {})] : Dir).length ∧
      tab = rep.clusters.map summaryRow ∧
      ∀ r ∈ rep.clusters,
        (summaryRow r).num_established = (r.established_genes.getD []).length ∧
        (summaryRow r).num_novel = (r.novel_role_genes.getD []).length ∧
        (summaryRow r).num_uncharacterized
          = (r.uncharacterized_genes.getD []).length :=
  C5_aggregation "m"
    [("cluster_2.json", FileData.obj { established_genes := some ["a", "b"] }),
     ("cluster_1.json", FileData.obj {})] (by decide)

/-- C6: after a run from an empty checkpoint directory in which the
analyzer succeeds on every item (no exception, nonempty `clusters`),
re-running the batch over the unchanged items and the intact checkpoint
directory completes (the checkpoint scan succeeds), makes zero analyzer
calls — whatever analyzer the second run is given — skips every item,
leaves the directory unchanged, and produces the same aggregation
output. -/
theorem C6_idempotence (r1 r2 : Bool) (A1 A2 : WorkItem → AnalyzerOutcome)
    (items : List WorkItem) (m : String)
    (hA1 : ∀ it ∈ items, saveable (A1 it) = true) :
    ∃ st1 st2, mainRun r1 A1 items [] = some st1 ∧
      mainRun r2 A2 items st1.dir = some st2 ∧
      st2.calls = 0 ∧ st2.dir = st1.dir ∧ st2.skipped = items.length ∧
      combine_results m st2.dir = combine_results m st1.dir := by
  obtain ⟨hinv, -⟩ := runBatch_inv (A := A1)
    (U := items.map fun it => pyStr it.cluster_id) items
    { dir := [], completed := [], skipped := 0, calls := 0, errLog := [] }
    (fun it hit => List.mem_map_of_mem _ hit) (startState_empty_inv _)
  obtain ⟨saved, hdir, hcomp, hg, hnodup, hsub⟩ := hinv
  have hall := runBatch_contains_of_saveable (A := A1) items
    { dir := [], completed := [], skipped := 0, calls := 0, errLog := [] } hA1
  have hload : load_existing_results (runBatch A1
      { dir := [], completed := [], skipped := 0, calls := 0, errLog := [] }
      items).dir = some saved := by
    rw [hdir]
    exact load_savedlist saved hg hnodup
  have hrun2eq : mainRun r2 A2 items (runBatch A1
        { dir := [], completed := [], skipped := 0, calls := 0, errLog := [] }
        items).dir
      = some (runBatch A2
          { dir := (runBatch A1 { dir := [], completed := [], skipped := 0, calls := 0, errLog := [] } items).dir,
            completed := saved,
            skipped := 0,
            calls := 0,
            errLog := [] } items) := by
    show ((load_existing_results _).map _).map _ = _
    rw [hload]
    rfl
  have hskip : ∀ it ∈ items,
      dictContains saved (pyStr it.cluster_id) = true := by
    intro it hit
    rw [← hcomp]
    exact hall it hit
  have hrun2 := runBatch_all_skip (A := A2) items
    { dir := (runBatch A1 { dir := [], completed := [], skipped := 0, calls := 0, errLog := [] } items).dir,
      completed := saved,
      skipped := 0,
      calls := 0,
      errLog := [] } hskip
  refine ⟨_, _, rfl, hrun2eq, ?_, ?_, ?_, ?_⟩
  · rw [hrun2]
  · rw [hrun2]
  · rw [hrun2]
    simp
  · rw [hrun2]

/-- Witness for C6: a two-item batch analyzed successfully once; the second
run (with an analyzer that would always raise) makes zero calls and leaves
everything unchanged. -/
theorem C6_idempotence_witness :
    ∃ st1 st2,
      mainRun false (fun _ => .ok [("e", {})]) [⟨.n 1⟩, ⟨.n 2⟩] [] = some st1 ∧
      mainRun true (fun _ => .err) [⟨.n 1⟩, ⟨.n 2⟩] st1.dir = some st2 ∧
      st2.calls = 0 ∧ st2.dir = st1.dir ∧
      st2.skipped = ([⟨.n 1⟩, ⟨.n 2⟩] : List WorkItem).length ∧
      combine_results "m" st2.dir = combine_results "m" st1.dir :=
  C6_idempotence false true (fun _ => .ok [("e", {})]) (fun _ => .err)
    [⟨.n 1⟩, ⟨.n 2⟩] "m" (by decide)

/-- C7 (counterexample): a `.json` checkpoint whose content is valid JSON
but not an object (`null`, a list, a number ...) defeats the claim's
"never aborts": `data.get("cluster_id")` raises `AttributeError`, which
`except (json.JSONDecodeError, KeyError)` does not catch, so discovery
aborts instead of silently skipping the file. -/
theorem C7_counterexample :
    load_existing_results [("cluster_0.json", FileData.nonObject)] = none := by
  decide

/-- C7 (amended): when the scan completes, every entry of the returned
mapping is keyed by the string form of the `cluster_id` declared inside
some parsed `.json` object of the directory (with that document as value);
an entry that is not a `.json` file, fails to parse, or parses to an object
without a `cluster_id` is silently skipped, leaving the rest of the scan
unaffected; but a `.json` file parsing to non-object JSON raises an
uncaught `AttributeError` and aborts the whole scan. -/
theorem C7_load_completed :
    (∀ (dir : Dir) (res : List (String × ClusterDoc))
        (p : String × ClusterDoc),
      load_existing_results dir = some res → p ∈ res →
      ∃ name doc cid, (name, FileData.obj doc) ∈ dir ∧
        pyEndsWith name ".json" = true ∧ doc.cluster_id = some cid ∧
        p.1 = pyStr cid ∧ p.2 = doc) ∧
    (∀ (l1 l2 : Dir) (e : FileEntry), loadSkippable e →
      load_existing_results (l1 ++ e :: l2)
        = load_existing_results (l1 ++ l2)) ∧
    (∀ (dir : Dir) (name : String), (name, FileData.nonObject) ∈ dir →
      pyEndsWith name ".json" = true → load_existing_results dir = none) :=
  ⟨fun _ _ _ hres h => mem_load_existing hres h,
   fun l1 l2 e h => load_skip l1 l2 e h,
   fun _ _ hmem hjson => load_nonObject_abort hmem hjson⟩

/-- Witness for C7: the single entry loaded from a one-checkpoint directory
is keyed by the string form of the declared numeric id; a non-`.json` entry
is skipped wherever it sits in the listing; and a `.json` file holding
non-object JSON aborts the scan of a directory that also holds a good
checkpoint. -/
theorem C7_load_completed_witness :
    (∃ name doc cid,
      (name, FileData.obj doc) ∈ ([("cluster_7.json",
          FileData.obj { cluster_id := some (.n 7) })] : Dir) ∧
      pyEndsWith name ".json" = true ∧ doc.cluster_id = some cid ∧
      ("7", ({ cluster_id := some (.n 7) } : ClusterDoc)).1 = pyStr cid ∧
      ("7", ({ cluster_id := some (.n 7) } : ClusterDoc)).2 = doc) ∧
    load_existing_results [("notes.txt", FileData.obj {}),
        ("cluster_7.json", FileData.obj { cluster_id := some (.n 7) })]
      = load_existing_results [("cluster_7.json",
          FileData.obj { cluster_id := some (.n 7) })] ∧
    load_existing_results
        [("cluster_7.json", FileData.obj { cluster_id := some (.n 7) }),
         ("cluster_8.json", FileData.nonObject)] = none :=
  ⟨C7_load_completed.1
      [("cluster_7.json", FileData.obj { cluster_id := some (.n 7) })]
      [("7", { cluster_id := some (.n 7) })]
      ("7", { cluster_id := some (.n 7) }) (by decide) (by decide),
   C7_load_completed.2.1 []
      [("cluster_7.json", FileData.obj { cluster_id := some (.n 7) })]
      ("notes.txt", FileData.obj {}) (Or.inl (by decide)),
   C7_load_completed.2.2
      [("cluster_7.json", FileData.obj { cluster_id := some (.n 7) }),
       ("cluster_8.json", FileData.nonObject)]
      "cluster_8.json" (by decide) (by decide)⟩

/-- C8: the resume flag has no effect whatsoever — the whole observable
outcome of the run (directory, completed set, skip and call counts, error
log, and both aggregate outputs) is identical for any two values of the
flag, on every input, analyzer, and starting directory; resume behavior is
always-on via checkpoint presence. -/
theorem C8_resume_flag_no_effect (b1 b2 : Bool)
    (A : WorkItem → AnalyzerOutcome) (items : List WorkItem) (dir : Dir)
    (m : String) :
    mainFull b1 A items dir m = mainFull b2 A items dir m := rfl

/-- C9: with pairwise-distinct item ids, a run interrupted after the first
`t` items (having saved N checkpoint files from an empty directory)
followed by a fresh invocation over all M items completes its checkpoint
scan, makes exactly M − N analyzer calls in the fresh invocation, skips
exactly the N checkpointed items, and leaves the N prior checkpoint files
untouched byte-for-byte (the old listing is a prefix of the new one —
existing entries are never rewritten); moreover the two aggregate files are
written under names that contain no path separator, hence beside — not
inside — the checkpoint directory, which aggregation only reads. -/
theorem C9_resumability (r1 r2 : Bool) (A1 A2 : WorkItem → AnalyzerOutcome)
    (items : List WorkItem) (t : Nat) (m : String)
    (hn : (items.map fun it => pyStr it.cluster_id).Nodup) :
    ∃ st1 st2, mainRun r1 A1 (items.take t) [] = some st1 ∧
      mainRun r2 A2 items st1.dir = some st2 ∧
      st2.calls = items.length - st1.dir.length ∧
      st2.skipped = st1.dir.length ∧
      st1.dir <+: st2.dir ∧
      (∀ c ∈ (combineOutputBase m).data, c ≠ '/') := by
  have hU1 : ∀ it ∈ items.take t,
      pyStr it.cluster_id ∈ items.map fun x => pyStr x.cluster_id :=
    fun it hit => List.mem_map_of_mem _ (List.mem_of_mem_take hit)
  obtain ⟨hinv1, -⟩ := runBatch_inv (A := A1)
    (U := items.map fun x => pyStr x.cluster_id) (items.take t)
    { dir := [], completed := [], skipped := 0, calls := 0, errLog := [] }
    hU1 (startState_empty_inv _)
  obtain ⟨saved, hdir, hcomp, hg, hnodup, hsub⟩ := hinv1
  have hload : load_existing_results (runBatch A1
      { dir := [], completed := [], skipped := 0, calls := 0, errLog := [] }
      (items.take t)).dir = some saved := by
    rw [hdir]
    exact load_savedlist saved hg hnodup
  obtain ⟨hcalls, hskips⟩ := runBatch_counts (A := A2) items
    { dir := (runBatch A1 { dir := [], completed := [], skipped := 0, calls := 0, errLog := [] } (items.take t)).dir,
      completed := saved,
      skipped := 0,
      calls := 0,
      errLog := [] } hn
  have hpred : ∀ x : WorkItem,
      dictContains ({ dir := (runBatch A1 { dir := [], completed := [], skipped := 0, calls := 0, errLog := [] } (items.take t)).dir, completed := saved, skipped := 0, calls := 0, errLog := [] } : RunState).completed (pyStr x.cluster_id)
      = keyMem (saved.map Prod.fst) (pyStr x.cluster_id) := by
    intro x
    show dictContains saved _ = _
    rw [dictContains_eq_keyMem]
  have hflt1 : (items.filter fun x =>
        !dictContains ({ dir := (runBatch A1 { dir := [], completed := [], skipped := 0, calls := 0, errLog := [] } (items.take t)).dir, completed := saved, skipped := 0, calls := 0, errLog := [] } : RunState).completed (pyStr x.cluster_id))
      = items.filter fun x => !keyMem (saved.map Prod.fst) (pyStr x.cluster_id) :=
    List.filter_congr fun x _ => by rw [hpred x]
  have hflt2 : (items.filter fun x =>
        dictContains ({ dir := (runBatch A1 { dir := [], completed := [], skipped := 0, calls := 0, errLog := [] } (items.take t)).dir, completed := saved, skipped := 0, calls := 0, errLog := [] } : RunState).completed (pyStr x.cluster_id))
      = items.filter fun x => keyMem (saved.map Prod.fst) (pyStr x.cluster_id) :=
    List.filter_congr fun x _ => hpred x
  have hcount : (items.filter fun x =>
        keyMem (saved.map Prod.fst) (pyStr x.cluster_id)).length
      = (saved.map Prod.fst).length := by
    have hmapped := length_filter_map (fun x : WorkItem => pyStr x.cluster_id)
      (fun s => keyMem (saved.map Prod.fst) s) items
    rw [← hmapped]
    exact length_filter_keyMem (items.map fun x => pyStr x.cluster_id)
      (saved.map Prod.fst) hn hnodup hsub
  have hsum := length_filter_add items fun x =>
    keyMem (saved.map Prod.fst) (pyStr x.cluster_id)
  have hN : (runBatch A1 { dir := [], completed := [], skipped := 0, calls := 0, errLog := [] } (items.take t)).dir.length
      = (saved.map Prod.fst).length := by
    rw [hdir, List.length_map, List.length_map]
  have hinv2 : InvU
      { dir := (runBatch A1 { dir := [], completed := [], skipped := 0, calls := 0, errLog := [] } (items.take t)).dir,
        completed := saved, skipped := 0, calls := 0, errLog := [] }
      (items.map fun x => pyStr x.cluster_id) :=
    ⟨saved, hdir, rfl, hg, hnodup, hsub⟩
  obtain ⟨-, hpre⟩ := runBatch_inv (A := A2)
    (U := items.map fun x => pyStr x.cluster_id) items
    { dir := (runBatch A1 { dir := [], completed := [], skipped := 0, calls := 0, errLog := [] } (items.take t)).dir,
      completed := saved, skipped := 0, calls := 0, errLog := [] }
    (fun it hit => List.mem_map_of_mem _ hit) hinv2
  refine ⟨runBatch A1 { dir := [], completed := [], skipped := 0, calls := 0, errLog := [] } (items.take t),
    runBatch A2
      { dir := (runBatch A1 { dir := [], completed := [], skipped := 0, calls := 0, errLog := [] } (items.take t)).dir,
        completed := saved, skipped := 0, calls := 0, errLog := [] } items,
    rfl, ?_, ?_, ?_, ?_, ?_⟩
  · show ((load_existing_results _).map _).map _ = _
    rw [hload]
    rfl
  · rw [hcalls, hflt1, hN]
    show 0 + _ = _
    omega
  · rw [hskips, hflt2, hN, hcount]
    show 0 + _ = _
    omega
  · exact hpre
  · intro c hc
    have hdata : (combineOutputBase m).data
        = (m.data.map fun ch => if ch = '/' then '_' else ch)
          ++ "_results".data := rfl
    rw [hdata] at hc
    rcases List.mem_append.mp hc with h | h
    · obtain ⟨orig, -, rfl⟩ := List.mem_map.mp h
      by_cases ho : orig = '/'
      · simp [ho]
      · simp [ho]
    · have hres : ∀ ch ∈ "_results".data, ch ≠ '/' := by decide
      exact hres c h

/-- Witness for C9: three items, run interrupted after two (both saved),
fresh run over all three with a different analyzer; a model id containing a
namespace slash. -/
theorem C9_resumability_witness :
    ∃ st1 st2,
      mainRun false (fun _ => .ok [("e", {})])
          (([⟨.n 1⟩, ⟨.n 2⟩, ⟨.n 3⟩] : List WorkItem).take 2) [] = some st1 ∧
      mainRun true (fun _ => .err) [⟨.n 1⟩, ⟨.n 2⟩, ⟨.n 3⟩] st1.dir = some st2 ∧
      st2.calls = ([⟨.n 1⟩, ⟨.n 2⟩, ⟨.n 3⟩] : List WorkItem).length
        - st1.dir.length ∧
      st2.skipped = st1.dir.length ∧
      st1.dir <+: st2.dir ∧
      (∀ c ∈ (combineOutputBase "org/model").data, c ≠ '/') :=
  C9_resumability false true (fun _ => .ok [("e", {})]) (fun _ => .err)
    [⟨.n 1⟩, ⟨.n 2⟩, ⟨.n 3⟩] 2 "org/model" (by decide)

/-- C10: ids are normalized to strings at every boundary — (i) every key of
the mapping built by discovery is the string form of some parsed document's
declared id; (ii) the loop's skip check compares the string form of the
input row's id against the completed keys, and an item whose string id is
present is skipped untouched; (iii) a saved item is filed — in the
directory and in the in-memory completed dict — under that same string,
with that string stored in the document's `cluster_id`; (iv) in particular
an id that is numeric in the input table matches a checkpoint key equal to
its decimal form, so a numeric row id and a textual checkpoint id still
match. -/
theorem C10_string_ids :
    (∀ (dir : Dir) (res : List (String × ClusterDoc))
        (p : String × ClusterDoc),
      load_existing_results dir = some res → p ∈ res →
      ∃ cid, p.1 = pyStr cid) ∧
    (∀ (A : WorkItem → AnalyzerOutcome) (st : RunState) (it : WorkItem),
      dictContains st.completed (pyStr it.cluster_id) = true →
      processItem A st it = { st with skipped := st.skipped + 1 }) ∧
    (∀ (A : WorkItem → AnalyzerOutcome) (st : RunState) (it : WorkItem)
        (k : String) (cres : ClusterDoc) (t : List (String × ClusterDoc)),
      dictContains st.completed (pyStr it.cluster_id) = false →
      A it = .ok ((k, cres) :: t) →
      (processItem A st it).completed
          = dictInsert st.completed (pyStr it.cluster_id)
            { cres with cluster_id := some (.s (pyStr it.cluster_id)) } ∧
      (processItem A st it).dir
          = save_cluster_result st.dir (pyStr it.cluster_id)
            { cres with cluster_id := some (.s (pyStr it.cluster_id)) }) ∧
    (∀ (v : Int) (A : WorkItem → AnalyzerOutcome) (st : RunState),
      dictContains st.completed (toString v) = true →
      processItem A st ⟨JVal.n v⟩ = { st with skipped := st.skipped + 1 }) := by
  refine ⟨?_, ?_, ?_, ?_⟩
  · intro dir res p hres h
    obtain ⟨name, doc, cid, -, -, -, h4, -⟩ := mem_load_existing hres h
    exact ⟨cid, h4⟩
  · intro A st it h
    exact processItem_skip h
  · intro A st it k cres t h hA
    rw [processItem_save h hA]
    exact ⟨rfl, rfl⟩
  · intro v A st h
    exact processItem_skip (show dictContains st.completed
      (pyStr (JVal.n v)) = true from h)

/-- Witness for C10: a checkpoint directory declaring the textual id `"5"`
is loaded under the key `"5"`; the item whose input id is the number 5 is
then skipped; a saved item with numeric id 8 is filed under `"8"`. -/
theorem C10_string_ids_witness :
    (∃ cid, ("5", ({ cluster_id := some (.s "5") } : ClusterDoc)).1 = pyStr cid) ∧
    processItem (fun _ => .err)
        { dir := [("c.json", FileData.obj { cluster_id := some (.s "5") })],
          completed := [("5", { cluster_id := some (.s "5") })],
          skipped := 0,
          calls := 0,
          errLog := [] } ⟨.n 5⟩
      = { dir := [("c.json", FileData.obj { cluster_id := some (.s "5") })],
          completed := [("5", { cluster_id := some (.s "5") })],
          skipped := 1,
          calls := 0,
          errLog := [] } ∧
    ((processItem (fun _ => .ok [("k", {})])
        { dir := [],
          completed := [],
          skipped := 0,
          calls := 0,
          errLog := [] } ⟨.n 8⟩).completed
        = dictInsert [] (pyStr (JVal.n 8))
          { ({} : ClusterDoc) with cluster_id := some (.s (pyStr (JVal.n 8))) } ∧
      (processItem (fun _ => .ok [("k", {})])
        { dir := [],
          completed := [],
          skipped := 0,
          calls := 0,
          errLog := [] } ⟨.n 8⟩).dir
        = save_cluster_result [] (pyStr (JVal.n 8))
          { ({} : ClusterDoc) with cluster_id := some (.s (pyStr (JVal.n 8))) }) ∧
    processItem (fun _ => .err)
        { dir := [("c.json", FileData.obj { cluster_id := some (.s "5") })],
          completed := [("5", { cluster_id := some (.s "5") })],
          skipped := 0,
          calls := 0,
          errLog := [] } ⟨JVal.n 5⟩
      = { dir := [("c.json", FileData.obj { cluster_id := some (.s "5") })],
          completed := [("5", { cluster_id := some (.s "5") })],
          skipped := 1,
          calls := 0,
          errLog := [] } :=
  ⟨C10_string_ids.1 [("c.json", FileData.obj { cluster_id := some (.s "5") })]
      [("5", { cluster_id := some (.s "5") })]
      ("5", { cluster_id := some (.s "5") }) (by decide) (by decide),
   C10_string_ids.2.1 (fun _ => .err)
      { dir := [("c.json", FileData.obj { cluster_id := some (.s "5") })],
        completed := [("5", { cluster_id := some (.s "5") })],
        skipped := 0, calls := 0, errLog := [] } ⟨.n 5⟩
      (by decide),
   C10_string_ids.2.2.1 (fun _ => .ok [("k", {})])
      { dir := [], completed := [], skipped := 0, calls := 0, errLog := [] }
      ⟨.n 8⟩ "k" {} [] (by decide) rfl,
   C10_string_ids.2.2.2 5 (fun _ => .err)
      { dir := [("c.json", FileData.obj { cluster_id := some (.s "5") })],
        completed := [("5", { cluster_id := some (.s "5") })],
        skipped := 0, calls := 0, errLog := [] }
      (by decide)⟩
